import Mathlib

/-!
# Verification of the Multimodal Math Mentor orchestration core

A shallow embedding, in Lean 4, of the orchestration core of the
Multimodal Math Mentor server (`server/app`): the memory repository and
recall engine (`app/memory/repository.py`, `app/memory/recall.py`), the
synchronous and asynchronous agent orchestrators
(`app/domain/orchestrator.py`, `app/domain/async_orchestrator.py`), the
HITL signal computation of the parser and verifier agents
(`app/agents/parser.py`, `app/agents/verifier.py`), the combined-context
assembly used by the solver (`app/agents/solver.py`,
`app/rag/retriever.py`), and the streaming pipeline
(`app/domain/pipeline.py`).

Modelling conventions:
* The SQLite table `memory_entries` is modelled as a `List MemoryEntry`;
  `id` is the primary key, so stores of interest have pairwise distinct
  ids (stated as a hypothesis where it matters).
* SQL `WHERE col = ?` on a TEXT column uses SQLite's default BINARY
  collation, i.e. case-sensitive exact equality; SQL `LIKE '%pat%'` is
  case-insensitive for ASCII. The patterns passed by this code base
  contain no `%`/`_` wildcard metacharacters, so `LIKE '%pat%'` is
  modelled as case-insensitive substring containment.
* `ORDER BY created_at DESC` is modelled by a deterministic descending
  sort; SQLite does not promise a tie order, and no theorem below
  depends on the order of rows with equal `created_at`.
* Python's `sorted(..., key=f, reverse=True)` is a stable descending
  sort; both sorts are modelled by the stable insertion sort
  `sortDescBy` below.
* Python string comparison is lexicographic on code points, modelled by
  `charsLt`/`strLtb`; Python `str.lower` agrees with ASCII lowercasing
  on the inputs used here.
* Float fields (`confidence`, thresholds) are modelled as `Rat`: only
  order comparisons are performed on them.
* Wall-clock data (`execution_time_ms`, `datetime.utcnow()`) is not
  computed by the model: timestamps are passed in as opaque ISO strings,
  and durations are elided from the trace model.
-/

namespace MathMentor

/-! ## String primitives (Python `str.lower`, `str <`, substring test) -/

/-- ASCII lowercasing of a string, as Python `str.lower` on ASCII input. -/
def lowerStr (s : String) : String := ⟨s.data.map Char.toLower⟩

/-- Code-point lexicographic order on character lists: Python string `<`. -/
def charsLt : List Char → List Char → Bool
  | [], [] => false
  | [], _ :: _ => true
  | _ :: _, [] => false
  | a :: as, b :: bs => decide (a.toNat < b.toNat) || (a.toNat == b.toNat && charsLt as bs)

/-- Python string `<` on whole strings. -/
def strLtb (a b : String) : Bool := charsLt a.data b.data

theorem charsLt_trans (l1 : List Char) :
    ∀ l2 l3, charsLt l1 l2 = true → charsLt l2 l3 = true → charsLt l1 l3 = true := by
  induction l1 with
  | nil =>
    intro l2 l3 h1 h2
    cases l2 with
    | nil => simp [charsLt] at h1
    | cons b bs =>
      cases l3 with
      | nil => simp [charsLt] at h2
      | cons c cs => simp [charsLt]
  | cons a as ih =>
    intro l2 l3 h1 h2
    cases l2 with
    | nil => simp [charsLt] at h1
    | cons b bs =>
      cases l3 with
      | nil => simp [charsLt] at h2
      | cons c cs =>
        simp only [charsLt, Bool.or_eq_true, Bool.and_eq_true, decide_eq_true_eq,
          beq_iff_eq] at h1 h2 ⊢
        rcases h1 with h1 | ⟨hab, h1⟩
        · rcases h2 with h2 | ⟨hbc, h2⟩
          · exact Or.inl (by omega)
          · exact Or.inl (by omega)
        · rcases h2 with h2 | ⟨hbc, h2⟩
          · exact Or.inl (by omega)
          · exact Or.inr ⟨by omega, ih _ _ h1 h2⟩

theorem charsLt_asymm (l1 : List Char) :
    ∀ l2, charsLt l1 l2 = true → charsLt l2 l1 = false := by
  induction l1 with
  | nil =>
    intro l2 h1
    cases l2 with
    | nil => simp [charsLt] at h1
    | cons b bs => simp [charsLt]
  | cons a as ih =>
    intro l2 h1
    cases l2 with
    | nil => simp [charsLt] at h1
    | cons b bs =>
      simp only [charsLt, Bool.or_eq_true, Bool.and_eq_true, decide_eq_true_eq,
        beq_iff_eq] at h1 ⊢
      simp only [Bool.or_eq_false_iff, Bool.and_eq_false_iff, decide_eq_false_iff_not]
      rcases h1 with h1 | ⟨hab, h1⟩
      · constructor
        · omega
        · left
          simp only [beq_eq_false_iff_ne, ne_eq]
          omega
      · constructor
        · omega
        · right
          exact ih _ h1

/-- Substring containment on character lists (used to model SQL
`LIKE '%pat%'` for wildcard-free patterns). -/
def containsSub (hay needle : List Char) : Bool :=
  needle.isPrefixOf hay ||
    (match hay with
     | [] => false
     | _ :: t => containsSub t needle)

/-- Python `str.split()`: split on runs of whitespace, dropping empties. -/
def splitWsAux : List Char → List Char → List (List Char)
  | [], acc => if acc.isEmpty then [] else [acc.reverse]
  | c :: cs, acc =>
    if c.isWhitespace then
      (if acc.isEmpty then splitWsAux cs [] else acc.reverse :: splitWsAux cs [])
    else splitWsAux cs (c :: acc)

def splitWs (l : List Char) : List (List Char) := splitWsAux l []

/-! ## Stable descending sort

Models both Python `sorted(..., key=f, reverse=True)` (which is stable,
keeping the original order of ties) and SQL `ORDER BY ... DESC` (whose
tie order is unspecified; no claim below depends on it). -/

def insertDescBy {α : Type} (gt : α → α → Bool) (x : α) : List α → List α
  | [] => [x]
  | y :: ys => if gt x y then x :: y :: ys else y :: insertDescBy gt x ys

def sortDescBy {α : Type} (gt : α → α → Bool) (l : List α) : List α :=
  l.foldl (fun acc x => insertDescBy gt x acc) []

/-- Sortedness in descending order: no later element beats an earlier one. -/
def SortedDesc {α : Type} (gt : α → α → Bool) (l : List α) : Prop :=
  l.Pairwise (fun a b => gt b a = false)

theorem insertDescBy_perm {α : Type} (gt : α → α → Bool) (x : α) (l : List α) :
    (insertDescBy gt x l).Perm (x :: l) := by
  induction l with
  | nil => exact List.Perm.refl _
  | cons y ys ih =>
    simp only [insertDescBy]
    split
    · exact List.Perm.refl _
    · exact (List.Perm.cons y ih).trans (List.Perm.swap x y ys)

theorem sortDescBy_aux_perm {α : Type} (gt : α → α → Bool) (l : List α) :
    ∀ acc, (l.foldl (fun acc x => insertDescBy gt x acc) acc).Perm (acc ++ l) := by
  induction l with
  | nil => intro acc; simp
  | cons x xs ih =>
    intro acc
    simp only [List.foldl_cons]
    refine (ih _).trans ?_
    have h1 : ((insertDescBy gt x acc) ++ xs).Perm ((x :: acc) ++ xs) :=
      (insertDescBy_perm gt x acc).append_right xs
    refine h1.trans ?_
    simpa using (@List.perm_middle _ x acc xs).symm

theorem sortDescBy_perm {α : Type} (gt : α → α → Bool) (l : List α) :
    (sortDescBy gt l).Perm l := by
  simpa [sortDescBy] using sortDescBy_aux_perm gt l []

theorem insertDescBy_mem {α : Type} {gt : α → α → Bool} {x : α} {l : List α} {z : α}
    (h : z ∈ insertDescBy gt x l) : z = x ∨ z ∈ l := by
  have := (insertDescBy_perm gt x l).mem_iff.mp h
  simpa using this

theorem sortedDesc_insert {α : Type} {gt : α → α → Bool}
    (htrans : ∀ a b c, gt a b = true → gt b c = true → gt a c = true)
    (hasymm : ∀ a b, gt a b = true → gt b a = false)
    (x : α) {l : List α} (hs : SortedDesc gt l) : SortedDesc gt (insertDescBy gt x l) := by
  induction l with
  | nil => simp [SortedDesc, insertDescBy]
  | cons y ys ih =>
    rcases List.pairwise_cons.mp hs with ⟨hy, hys⟩
    by_cases hc : gt x y = true
    · simp only [insertDescBy, hc, if_true]
      refine List.Pairwise.cons ?_ hs
      intro z hz
      rcases List.mem_cons.mp hz with rfl | hz'
      · exact hasymm _ _ hc
      · by_contra hzx
        have hzx' : gt z x = true := by
          revert hzx; cases (gt z x) <;> simp
        have hzy : gt z y = true := htrans _ _ _ hzx' hc
        have := hy z hz'
        rw [this] at hzy
        exact Bool.false_ne_true hzy
    · have hc' : gt x y = false := by
        revert hc; cases (gt x y) <;> simp
      simp only [insertDescBy, hc', Bool.false_eq_true, if_false]
      refine List.Pairwise.cons ?_ (ih hys)
      intro z hz
      rcases insertDescBy_mem hz with rfl | hz'
      · exact hc'
      · exact hy z hz'

theorem sortDescBy_sorted {α : Type} {gt : α → α → Bool}
    (htrans : ∀ a b c, gt a b = true → gt b c = true → gt a c = true)
    (hasymm : ∀ a b, gt a b = true → gt b a = false)
    (l : List α) : SortedDesc gt (sortDescBy gt l) := by
  suffices h : ∀ acc, SortedDesc gt acc →
      SortedDesc gt (l.foldl (fun acc x => insertDescBy gt x acc) acc) from
    h [] (by simp [SortedDesc])
  induction l with
  | nil => intro acc h; simpa using h
  | cons x xs ih =>
    intro acc h
    exact ih _ (sortedDesc_insert htrans hasymm x h)

/-! ## Memory repository (`app/memory/repository.py`)

The SQLite table `memory_entries` is a `List MemoryEntry`. The JSON-dumped
columns (`retrieved_context`, `solution_steps`, `verifier_outcome`) are
opaque TEXT payloads here. -/

structure MemoryEntry where
  id : String
  original_input : String
  input_type : String
  parsed_question : String
  topic : String
  retrieved_context : String
  final_answer : String
  solution_steps : String
  verifier_outcome : String
  confidence : Rat
  requires_human_review : Bool
  user_feedback : Option String
  feedback_comment : Option String
  created_at : String
  updated_at : String
deriving DecidableEq, Repr

/-- `MemoryRepository.update_feedback`: the SQL
`UPDATE memory_entries SET user_feedback = ?, feedback_comment = ?, updated_at = ? WHERE id = ?`
followed by `return True`. The UPDATE touches every row whose id matches
(at most one, id being the primary key); an UPDATE matching zero rows is
not an SQLite error and the row count is never inspected, so the
non-exception path returns `True` unconditionally. -/
def update_feedback (store : List MemoryEntry) (entry_id feedback : String)
    (comment : Option String) (now : String) : List MemoryEntry × Bool :=
  (store.map (fun e =>
    if e.id = entry_id then
      { e with user_feedback := some feedback, feedback_comment := comment, updated_at := now }
    else e), true)

/-- `1 if e.user_feedback == "correct" else 0`, the first sort-key component
of `MemoryRecall.find_similar_problems`. -/
def correctRank (e : MemoryEntry) : Nat :=
  if e.user_feedback = some "correct" then 1 else 0

/-- SQL `ORDER BY created_at DESC` comparator. -/
def createdGt (a b : MemoryEntry) : Bool := strLtb b.created_at a.created_at

/-- Python `sorted(key=lambda e: (1 if correct else 0, e.created_at), reverse=True)`
comparator: `a` strictly before `b` iff `a`'s key pair is lexicographically
greater. -/
def entryGt (a b : MemoryEntry) : Bool :=
  decide (correctRank b < correctRank a) ||
    (correctRank a == correctRank b && strLtb b.created_at a.created_at)

theorem strLtb_trans (a b c : String) (h1 : strLtb a b = true) (h2 : strLtb b c = true) :
    strLtb a c = true :=
  charsLt_trans a.data b.data c.data h1 h2

theorem strLtb_asymm (a b : String) (h : strLtb a b = true) : strLtb b a = false :=
  charsLt_asymm a.data b.data h

theorem createdGt_trans (a b c : MemoryEntry) (h1 : createdGt a b = true)
    (h2 : createdGt b c = true) : createdGt a c = true :=
  strLtb_trans _ _ _ h2 h1

theorem createdGt_asymm (a b : MemoryEntry) (h : createdGt a b = true) :
    createdGt b a = false :=
  strLtb_asymm _ _ h

theorem entryGt_trans (a b c : MemoryEntry) (h1 : entryGt a b = true)
    (h2 : entryGt b c = true) : entryGt a c = true := by
  simp only [entryGt, Bool.or_eq_true, Bool.and_eq_true, decide_eq_true_eq,
    beq_iff_eq] at h1 h2 ⊢
  rcases h1 with h1 | ⟨hab, h1⟩ <;> rcases h2 with h2 | ⟨hbc, h2⟩
  · exact Or.inl (by omega)
  · exact Or.inl (by omega)
  · exact Or.inl (by omega)
  · exact Or.inr ⟨by omega, strLtb_trans _ _ _ h2 h1⟩

theorem entryGt_asymm (a b : MemoryEntry) (h : entryGt a b = true) :
    entryGt b a = false := by
  simp only [entryGt, Bool.or_eq_true, Bool.and_eq_true, decide_eq_true_eq,
    beq_iff_eq] at h
  simp only [entryGt, Bool.or_eq_false_iff, Bool.and_eq_false_iff,
    decide_eq_false_iff_not]
  rcases h with h | ⟨hab, h⟩
  · refine ⟨by omega, Or.inl ?_⟩
    simp only [beq_eq_false_iff_ne, ne_eq]
    omega
  · exact ⟨by omega, Or.inr (strLtb_asymm _ _ h)⟩

/-- `MemoryRepository.get_entries_by_topic`:
`SELECT * FROM memory_entries WHERE topic = ? ORDER BY created_at DESC LIMIT ?`.
SQLite `=` on a TEXT column uses the default BINARY collation, i.e.
case-sensitive exact equality. -/
def get_entries_by_topic (store : List MemoryEntry) (topic : String) (limit : Nat) :
    List MemoryEntry :=
  (sortDescBy createdGt (store.filter (fun e => e.topic == topic))).take limit

/-- `MemoryRepository.get_correct_entries`:
`SELECT * FROM memory_entries WHERE user_feedback = 'correct' ORDER BY created_at DESC LIMIT ?`. -/
def get_correct_entries (store : List MemoryEntry) (limit : Nat) : List MemoryEntry :=
  (sortDescBy createdGt (store.filter (fun e => e.user_feedback == some "correct"))).take limit

/-- SQLite `hay LIKE '%pat%'` for a wildcard-free `pat`: case-insensitive
(for ASCII) substring containment. -/
def likeContains (hay pat : String) : Bool :=
  containsSub (lowerStr hay).data (lowerStr pat).data

/-- `MemoryRepository.search_by_text`:
`SELECT * FROM memory_entries WHERE parsed_question LIKE ? ORDER BY created_at DESC LIMIT ?`
with pattern `'%' + query + '%'`. -/
def search_by_text (store : List MemoryEntry) (query : String) (limit : Nat) :
    List MemoryEntry :=
  (sortDescBy createdGt (store.filter (fun e => likeContains e.parsed_question query))).take limit

/-! ## Memory recall (`app/memory/recall.py`) -/

/-- The stop-word set of `MemoryRecall._extract_keywords`. -/
def stop_words : List String :=
  ["the", "a", "an", "is", "are", "was", "were", "be", "been",
   "being", "have", "has", "had", "do", "does", "did", "will",
   "would", "could", "should", "may", "might", "must", "shall",
   "can", "of", "to", "in", "for", "on", "with", "at", "by",
   "from", "as", "into", "through", "during", "before", "after",
   "above", "below", "and", "but", "or", "if", "then", "else",
   "when", "where", "why", "how", "all", "each", "every", "both",
   "few", "more", "most", "other", "some", "such", "no", "nor",
   "not", "only", "own", "same", "so", "than", "too", "very",
   "just", "what", "find", "solve", "calculate", "determine",
   "evaluate", "compute", "given", "that", "this"]

/-- `MemoryRecall._extract_keywords`:
`text.lower().replace('?', '').replace('.', '').split()`, then drop
stop-words and tokens of length ≤ 2. -/
def extract_keywords (text : String) : List String :=
  let cleaned := (lowerStr text).data.filter (fun c => !(c == '?') && !(c == '.'))
  let words := (splitWs cleaned).map (fun l => String.mk l)
  words.filter (fun w => !(stop_words.contains w) && decide (2 < w.length))

/-- Python truthiness of the `topic: Optional[str]` argument:
`if topic:` is false for both `None` and `""`. -/
def truthyTopic : Option String → Bool
  | none => false
  | some t => !(t == "")

/-- One step of the dedup loop in `find_similar_problems`:
`if entry.id not in [r.id for r in results]: results.append(entry)`. -/
def dedupAppend (res : List MemoryEntry) (e : MemoryEntry) : List MemoryEntry :=
  if res.any (fun r => r.id == e.id) then res else res ++ [e]

/-- The topic fetch of `find_similar_problems` (`if topic:` is Python
truthiness, false for `None` and `""`). -/
def fsTopicResults (store : List MemoryEntry) (topic : Option String) (limit : Nat) :
    List MemoryEntry :=
  match topic with
  | some t => if t == "" then [] else get_entries_by_topic store t limit
  | none => []

/-- The accumulated results of `find_similar_problems` before sorting:
topic fetch, then per-keyword text search (first 3 keywords) with id-dedup
against the accumulated list. -/
def fsMerged (store : List MemoryEntry) (query : String) (topic : Option String)
    (limit : Nat) : List MemoryEntry :=
  ((extract_keywords query).take 3).foldl
    (fun res kw => (search_by_text store kw limit).foldl dedupAppend res)
    (fsTopicResults store topic limit)

/-- `MemoryRecall.find_similar_problems`: topic fetch (if topic is truthy),
then per-keyword text search with id-dedup against the accumulated list,
then the stable descending sort on `(correct, created_at)`, truncated to
`limit`. The `try/except` wrapper only turns repository exceptions into
`[]`; the model's repository operations do not raise. -/
def find_similar_problems (store : List MemoryEntry) (query : String)
    (topic : Option String) (limit : Nat) : List MemoryEntry :=
  (sortDescBy entryGt (fsMerged store query topic limit)).take limit

/-- The `topic_pattern` projection built by `get_solution_patterns`. -/
structure SolutionPattern where
  problem : String
  solution_steps : String
  answer : String
  confidence : Rat
deriving DecidableEq, Repr

/-- `MemoryRecall.get_solution_patterns`: correct entries (fetch bound
`limit * 2`), filtered by case-insensitive topic equality, truncated to
`limit`, projected into patterns. -/
def get_solution_patterns (store : List MemoryEntry) (topic : String) (limit : Nat) :
    List SolutionPattern :=
  let entries := get_correct_entries store (limit * 2)
  let topic_entries := entries.filter (fun e => lowerStr e.topic == lowerStr topic)
  (topic_entries.take limit).map
    (fun e => ⟨e.parsed_question, e.solution_steps, e.final_answer, e.confidence⟩)

/-- A memory pattern dict as assembled by `get_combined_context`: either a
`topic_pattern` projection or a `similar_problem` record. -/
inductive MemoryPattern where
  | topicPattern (p : SolutionPattern)
  | similarProblem (problem solution : String) (confidence : Rat)
deriving DecidableEq, Repr

/-- The RAG collaborator (`app/rag/retriever.py`) at its boundary:
`_is_initialized`, and the outcome of `similarity_search` when called
(which `RAGRetriever.retrieve` re-raises as `RetrievalError`). -/
structure RagState where
  initialized : Bool
  retrieveResult : Except String (List String)
deriving Repr

/-- `RAGRetriever.retrieve`: `[]` when the vector store is uninitialized,
otherwise the `similarity_search` outcome (errors re-raised). -/
def rag_retrieve (r : RagState) : Except String (List String) :=
  if r.initialized then r.retrieveResult else .ok []

/-- The memory side of `get_combined_context`: `get_solution_patterns`
(limit 2) when the topic is truthy, followed by a `similar_problem`
record for each correct entry among `find_similar_problems` (limit 2). -/
def memory_patterns_of (store : List MemoryEntry) (query : String)
    (topic : Option String) : List MemoryPattern :=
  let base :=
    match topic with
    | some t =>
      if t == "" then []
      else (get_solution_patterns store t 2).map MemoryPattern.topicPattern
    | none => []
  let similar := find_similar_problems store query topic 2
  base ++
    (similar.filter (fun e => e.user_feedback == some "correct")).map
      (fun e => MemoryPattern.similarProblem e.parsed_question e.final_answer e.confidence)

/-- `MemoryRecall.get_combined_context`. The guard
`self.rag.retrieve(query, k=3) if self.rag._is_initialized else []` is in
the function itself; a raising `retrieve` on an initialized index
propagates (there is no `try` here). `get_solution_patterns` (limit 2) and
`find_similar_problems` (limit 2) swallow their own errors internally. -/
def get_combined_context (r : RagState) (store : List MemoryEntry)
    (query : String) (topic : Option String) :
    Except String (List String × List MemoryPattern) :=
  match (if r.initialized then rag_retrieve r else .ok []) with
  | .error e => .error e
  | .ok rag_contexts => .ok (rag_contexts, memory_patterns_of store query topic)

/-- `SolverAgent._retrieve_context`: pre-supplied truthy context
short-circuits; otherwise `get_combined_context` on
`f"{topic}: {problem_text}"`, with any exception caught and downgraded to
`(None, None)`; empty lists are returned as `None`. -/
def retrieve_context (r : RagState) (store : List MemoryEntry)
    (pre : Option (List String)) (topic problem_text : String) :
    Option (List String) × Option (List MemoryPattern) :=
  if !(pre.getD []).isEmpty then (some (pre.getD []), none)
  else
    match get_combined_context r store (topic ++ ": " ++ problem_text) (some topic) with
    | .ok (rag, pats) =>
      ((if rag.isEmpty then none else some rag),
       (if pats.isEmpty then none else some pats))
    | .error _ => (none, none)

/-! ## Settings (`app/settings.py`) -/

structure Settings where
  ENABLE_GUARDRAILS : Bool := true
  USE_LANGCHAIN_REACT : Bool := true
  VERIFIER_CONFIDENCE_THRESHOLD : Rat := 3/4
  PARSER_AMBIGUITY_THRESHOLD : Nat := 1

def defaultSettings : Settings := {}

/-! ## Agents (`app/agents/*.py`)

Each agent's `execute` sends a prompt to the completion service and
post-processes the structured response; the response is the
nondeterministic input here. Only the post-processing that the
orchestrator observes is modelled. -/

structure GuardrailOutput where
  is_safe : Bool
  violations : List String
  risk_level : String
  should_continue : Bool
deriving DecidableEq, Repr

/-- The fields `ParserAgent.execute` reads off the LLM JSON response
(after `.get` defaulting). -/
structure ParserResp where
  problem_text : String
  topic : String
  ambiguities : List String
  needs_clarification : Bool
deriving DecidableEq, Repr

structure ParserOutput where
  problem_text : String
  topic : String
  ambiguities : List String
  needs_clarification : Bool
  requires_human_review : Bool
deriving DecidableEq, Repr

/-- `ParserAgent.execute`: HITL iff
`len(ambiguities) >= settings.PARSER_AMBIGUITY_THRESHOLD or needs_clarification`. -/
def parser_execute (s : Settings) (r : ParserResp) : ParserOutput :=
  { problem_text := r.problem_text
    topic := r.topic
    ambiguities := r.ambiguities
    needs_clarification := r.needs_clarification
    requires_human_review :=
      decide (s.PARSER_AMBIGUITY_THRESHOLD ≤ r.ambiguities.length) || r.needs_clarification }

structure RouterOutput where
  problem_type : String
  difficulty_level : String
deriving DecidableEq, Repr

structure SolverOutput where
  answer : String
  tools_used : List String
deriving DecidableEq, Repr

/-- The fields `VerifierAgent.execute` reads off the LLM JSON response. -/
structure VerifierResp where
  is_correct : Bool
  confidence : Rat
  correctness_issues : List String
  requires_human_review : Bool
deriving DecidableEq, Repr

structure VerifierOutput where
  is_correct : Bool
  confidence : Rat
  correctness_issues : List String
  requires_human_review : Bool
deriving DecidableEq, Repr

/-- `VerifierAgent.execute`: HITL iff
`confidence < settings.VERIFIER_CONFIDENCE_THRESHOLD or has_issues or
response.get("requires_human_review", False)`. -/
def verifier_execute (s : Settings) (r : VerifierResp) : VerifierOutput :=
  { is_correct := r.is_correct
    confidence := r.confidence
    correctness_issues := r.correctness_issues
    requires_human_review :=
      decide (r.confidence < s.VERIFIER_CONFIDENCE_THRESHOLD) ||
        decide (0 < r.correctness_issues.length) || r.requires_human_review }

structure ExplainerOutput where
  explanation : String
  step_by_step : List String
  difficulty_rating : String
deriving DecidableEq, Repr

/-! ## Orchestrators (`app/domain/orchestrator.py`,
`app/domain/async_orchestrator.py`) -/

/-- One run's worth of stage behaviors: the outcome of each `agent.run`
call, abstracting the completion service. `GuardrailAgent.execute`
catches all of its own exceptions (returning a permissive default), so
the guardrail behavior is a plain output. -/
structure StageBehaviors where
  guardrail : GuardrailOutput
  parser : Except String ParserResp
  router : Except String RouterOutput
  solver : Except String SolverOutput
  verifier : Except String VerifierResp
  explainer : Except String ExplainerOutput

/-- One `AgentTrace` entry. `input_summary`, `output_summary`,
`execution_time_ms` and `metadata` are elided: the first two are string
projections never read back, the third is wall-clock time. -/
structure AgentTrace where
  agent_name : String
  success : Bool
  error : Option String
deriving DecidableEq, Repr

/-- The two exception classes the orchestrator lets escape
(`app/core/exceptions.py`): `GuardrailViolation` re-raised as itself and
every other failure wrapped as `AgentError("Pipeline failed: ...")`. -/
inductive PipelineError where
  | guardrailViolation (msg : String)
  | agentError (msg : String)
deriving DecidableEq, Repr

/-- The parts of `PipelineOutput` the claims observe. `hitl_reasons`
models `metadata["hitl_reasons"]`: `some` in the synchronous orchestrator,
`none` in the async orchestrator (whose metadata has no such key). -/
structure PipelineOutput where
  final_answer : String
  explanation : String
  confidence : Rat
  requires_human_review : Bool
  hitl_reasons : Option (List String)
  agent_trace : List AgentTrace
deriving DecidableEq, Repr

def joinComma (l : List String) : String := String.intercalate ", " l

/-- `AgentOrchestrator.execute_pipeline` (synchronous). Returns the
outcome together with the orchestrator's final `self.trace` (which the
caller loses on a raise, but which the object retains). Every
`_execute_agent` call appends a success or failure trace entry; a stage
failure aborts the chain; `GuardrailViolation` is re-raised as itself,
any other exception is wrapped as `AgentError`. -/
def execute_pipeline (s : Settings) (b : StageBehaviors) (input_enable_guardrails : Bool) :
    Except PipelineError PipelineOutput × List AgentTrace :=
  let gEnabled := input_enable_guardrails && s.ENABLE_GUARDRAILS
  let tr0 : List AgentTrace := if gEnabled then [⟨"guardrail", true, none⟩] else []
  if gEnabled && !b.guardrail.should_continue then
    (.error (.guardrailViolation ("Content policy violation: " ++ joinComma b.guardrail.violations)), tr0)
  else
    match b.parser with
    | .error e => (.error (.agentError ("Pipeline failed: " ++ e)), tr0 ++ [⟨"parser", false, some e⟩])
    | .ok presp =>
      let parsed := parser_execute s presp
      let tr1 := tr0 ++ [⟨"parser", true, none⟩]
      match b.router with
      | .error e => (.error (.agentError ("Pipeline failed: " ++ e)), tr1 ++ [⟨"intent_router", false, some e⟩])
      | .ok _routing =>
        let tr2 := tr1 ++ [⟨"intent_router", true, none⟩]
        match b.solver with
        | .error e => (.error (.agentError ("Pipeline failed: " ++ e)), tr2 ++ [⟨"solver", false, some e⟩])
        | .ok solution =>
          let tr3 := tr2 ++ [⟨"solver", true, none⟩]
          match b.verifier with
          | .error e => (.error (.agentError ("Pipeline failed: " ++ e)), tr3 ++ [⟨"verifier", false, some e⟩])
          | .ok vresp =>
            let verification := verifier_execute s vresp
            let tr4 := tr3 ++ [⟨"verifier", true, none⟩]
            match b.explainer with
            | .error e => (.error (.agentError ("Pipeline failed: " ++ e)), tr4 ++ [⟨"explainer", false, some e⟩])
            | .ok explanation =>
              let tr5 := tr4 ++ [⟨"explainer", true, none⟩]
              let hitl_reasons :=
                (if parsed.requires_human_review then ["parser_ambiguity"] else []) ++
                (if verification.requires_human_review then ["verifier_low_confidence"] else [])
              (.ok { final_answer := solution.answer
                     explanation := explanation.explanation
                     confidence := verification.confidence
                     requires_human_review := decide (0 < hitl_reasons.length)
                     hitl_reasons := some hitl_reasons
                     agent_trace := tr5 }, tr5)

/-- `AsyncAgentOrchestrator.execute_pipeline`. Same stage chain, but the
final output sets `requires_human_review := verification.requires_human_review`
only (the parser's signal is not consulted) and its metadata carries no
`hitl_reasons` key. `lcAvailable` models the module-level
`LANGCHAIN_AVAILABLE` flag, which only selects the solver agent's name. -/
def async_execute_pipeline (s : Settings) (lcAvailable : Bool) (b : StageBehaviors)
    (input_enable_guardrails : Bool) :
    Except PipelineError PipelineOutput × List AgentTrace :=
  let solverName := if s.USE_LANGCHAIN_REACT && lcAvailable then "langchain_react_solver" else "solver"
  let gEnabled := input_enable_guardrails && s.ENABLE_GUARDRAILS
  let tr0 : List AgentTrace := if gEnabled then [⟨"guardrail", true, none⟩] else []
  if gEnabled && !b.guardrail.should_continue then
    (.error (.guardrailViolation ("Content policy violation: " ++ joinComma b.guardrail.violations)), tr0)
  else
    match b.parser with
    | .error e => (.error (.agentError ("Pipeline failed: " ++ e)), tr0 ++ [⟨"parser", false, some e⟩])
    | .ok _presp =>
      let tr1 := tr0 ++ [⟨"parser", true, none⟩]
      match b.router with
      | .error e => (.error (.agentError ("Pipeline failed: " ++ e)), tr1 ++ [⟨"intent_router", false, some e⟩])
      | .ok _routing =>
        let tr2 := tr1 ++ [⟨"intent_router", true, none⟩]
        match b.solver with
        | .error e => (.error (.agentError ("Pipeline failed: " ++ e)), tr2 ++ [⟨solverName, false, some e⟩])
        | .ok solution =>
          let tr3 := tr2 ++ [⟨solverName, true, none⟩]
          match b.verifier with
          | .error e => (.error (.agentError ("Pipeline failed: " ++ e)), tr3 ++ [⟨"verifier", false, some e⟩])
          | .ok vresp =>
            let verification := verifier_execute s vresp
            let tr4 := tr3 ++ [⟨"verifier", true, none⟩]
            match b.explainer with
            | .error e => (.error (.agentError ("Pipeline failed: " ++ e)), tr4 ++ [⟨"explainer", false, some e⟩])
            | .ok explanation =>
              let tr5 := tr4 ++ [⟨"explainer", true, none⟩]
              (.ok { final_answer := solution.answer
                     explanation := explanation.explanation
                     confidence := verification.confidence
                     requires_human_review := verification.requires_human_review
                     hitl_reasons := none
                     agent_trace := tr5 }, tr5)

/-! ## Streaming pipeline (`app/domain/pipeline.py::solve_problem_streaming`)

The async generator is modelled as a transition system. The solve task
pushes its progress messages (agent, status) into the unbounded
`progress_queue` in order; the generator's poll loop
(`asyncio.wait_for(progress_queue.get(), timeout=0.1)`) pops one message
per successful poll and yields it as an `agent_update` event (a timed-out
poll is a no-op); when the task is done the remaining queue items are
drained by the same pop-and-yield step and then exactly one terminal
event is yielded (`final_result` on success, `error` on a task
exception). A `CancelledError` delivered at an await point sets
`is_cancelled` (so the callback drops all later messages), cancels the
task, and yields exactly one `cancelled` event, ending the generator.
The interleaving of task and generator steps is the `StreamAction`
schedule, universally quantified in the theorems. -/

inductive StreamEvent where
  | agentUpdate (agent status : String)
  | finalResult
  | errorEvt (msg : String)
  | cancelledEvt
deriving DecidableEq, Repr

/-- Outcome of the background `solve_problem_async` task. -/
inductive RunOutcome where
  | success
  | failure (msg : String)
deriving DecidableEq, Repr

def terminalOf : RunOutcome → StreamEvent
  | .success => .finalResult
  | .failure m => .errorEvt m

def isTerminal : StreamEvent → Bool
  | .agentUpdate _ _ => false
  | .finalResult => true
  | .errorEvt _ => true
  | .cancelledEvt => true

structure StreamState where
  toEmit : List (String × String)
  queue : List (String × String)
  producerDone : Bool
  cancelled : Bool
  events : List StreamEvent
  finished : Bool
deriving Repr

/-- The interleaved steps of the solve task and the event generator. -/
inductive StreamAction where
  | produce
  | poll
  | finishTask
  | finish
  | cancel
deriving DecidableEq, Repr

def mkUpdate (m : String × String) : StreamEvent := StreamEvent.agentUpdate m.1 m.2

/-- One transition. Guards that do not hold make the action a no-op
(e.g. a timed-out poll, or any action after the generator returned). -/
def streamStep (outcome : RunOutcome) (s : StreamState) : StreamAction → StreamState
  | .produce =>
    if !s.cancelled && !s.producerDone then
      match s.toEmit with
      | [] => s
      | m :: rest => { s with toEmit := rest, queue := s.queue ++ [m] }
    else s
  | .poll =>
    if !s.finished then
      match s.queue with
      | [] => s
      | m :: rest => { s with queue := rest, events := s.events ++ [mkUpdate m] }
    else s
  | .finishTask =>
    if !s.cancelled && !s.producerDone && s.toEmit.isEmpty then
      { s with producerDone := true }
    else s
  | .finish =>
    if !s.finished && s.producerDone && s.queue.isEmpty then
      { s with events := s.events ++ [terminalOf outcome], finished := true }
    else s
  | .cancel =>
    if !s.finished then
      { s with cancelled := true, finished := true, events := s.events ++ [StreamEvent.cancelledEvt] }
    else s

def initStream (msgs : List (String × String)) : StreamState :=
  { toEmit := msgs, queue := [], producerDone := false, cancelled := false,
    events := [], finished := false }

def runStream (outcome : RunOutcome) (msgs : List (String × String))
    (sched : List StreamAction) : StreamState :=
  sched.foldl (streamStep outcome) (initStream msgs)

/-- Reachable-state invariant: an unfinished generator has emitted a
prefix of the task's messages (as `agent_update`s, no terminal); a
finished generator has emitted a message prefix followed by exactly one
terminal event. -/
def StreamInv (msgs : List (String × String)) (s : StreamState) : Prop :=
  (s.finished = false →
    s.cancelled = false ∧
    (∃ E, s.events = E.map mkUpdate ∧ E ++ s.queue ++ s.toEmit = msgs ∧
      (s.producerDone = true → s.toEmit = []))) ∧
  (s.finished = true →
    ∃ k t, s.events = ((msgs.take k).map mkUpdate) ++ [t] ∧ isTerminal t = true)

theorem isTerminal_terminalOf (o : RunOutcome) : isTerminal (terminalOf o) = true := by
  cases o <;> rfl

theorem streamStep_inv (outcome : RunOutcome) (msgs : List (String × String))
    (s : StreamState) (a : StreamAction) (h : StreamInv msgs s) :
    StreamInv msgs (streamStep outcome s a) := by
  obtain ⟨hrun, hfin⟩ := h
  cases a with
  | produce =>
    simp only [streamStep]
    split
    · cases hem : s.toEmit with
      | nil => exact ⟨hrun, hfin⟩
      | cons m rest =>
        constructor
        · intro hf
          simp only at hf
          obtain ⟨hc, E, hev, hsplit, hpd⟩ := hrun hf
          refine ⟨hc, E, hev, ?_, ?_⟩
          · rw [← hsplit, hem]
            simp
          · intro hpd'
            simp only at hpd'
            have := hpd hpd'
            rw [hem] at this
            exact absurd this (by simp)
        · intro hf
          simp only at hf
          exact hfin hf
    · exact ⟨hrun, hfin⟩
  | poll =>
    simp only [streamStep]
    split
    · rename_i hnf
      have hf : s.finished = false := by
        revert hnf; cases s.finished <;> simp
      cases hq : s.queue with
      | nil => exact ⟨hrun, hfin⟩
      | cons m rest =>
        obtain ⟨hc, E, hev, hsplit, hpd⟩ := hrun hf
        constructor
        · intro _
          refine ⟨hc, E ++ [m], by simp [hev], ?_, hpd⟩
          rw [← hsplit, hq]
          simp
        · intro hcontra
          simp only at hcontra
          rw [hcontra] at hf
          exact absurd hf (by simp)
    · exact ⟨hrun, hfin⟩
  | finishTask =>
    simp only [streamStep]
    split
    · rename_i hguard
      constructor
      · intro hf
        simp only at hf
        obtain ⟨hc, E, hev, hsplit, _⟩ := hrun hf
        refine ⟨hc, E, hev, hsplit, ?_⟩
        intro _
        have : s.toEmit.isEmpty = true := by
          simp only [Bool.and_eq_true] at hguard
          exact hguard.2
        simpa [List.isEmpty_iff] using this
      · intro hf
        simp only at hf
        exact hfin hf
    · exact ⟨hrun, hfin⟩
  | finish =>
    simp only [streamStep]
    split
    · rename_i hguard
      have hf : s.finished = false := by
        revert hguard; cases s.finished <;> simp
      have hpd : s.producerDone = true := by
        revert hguard; cases s.producerDone <;> simp
      have hq : s.queue = [] := by
        have : s.queue.isEmpty = true := by
          revert hguard; cases h : s.queue.isEmpty <;> simp
        simpa [List.isEmpty_iff] using this
      obtain ⟨hc, E, hev, hsplit, hpde⟩ := hrun hf
      have hte : s.toEmit = [] := hpde hpd
      have hE : E = msgs := by
        rw [← hsplit, hq, hte]
        simp
      constructor
      · intro hcontra
        simp at hcontra
      · intro _
        refine ⟨msgs.length, terminalOf outcome, ?_, isTerminal_terminalOf outcome⟩
        simp [hev, hE]
    · exact ⟨hrun, hfin⟩
  | cancel =>
    simp only [streamStep]
    split
    · rename_i hguard
      have hf : s.finished = false := by
        revert hguard; cases s.finished <;> simp
      obtain ⟨hc, E, hev, hsplit, _⟩ := hrun hf
      constructor
      · intro hcontra
        simp at hcontra
      · intro _
        refine ⟨E.length, StreamEvent.cancelledEvt, ?_, rfl⟩
        have : msgs.take E.length = E := by
          rw [← hsplit, List.append_assoc, List.take_left]
        simp [hev, this]
    · exact ⟨hrun, hfin⟩

theorem runStream_inv (outcome : RunOutcome) (msgs : List (String × String))
    (sched : List StreamAction) : StreamInv msgs (runStream outcome msgs sched) := by
  suffices h : ∀ (sched : List StreamAction) (s : StreamState), StreamInv msgs s →
      StreamInv msgs (sched.foldl (streamStep outcome) s) by
    refine h sched (initStream msgs) ?_
    constructor
    · intro _
      exact ⟨rfl, [], by simp [initStream]⟩
    · intro hcontra
      simp [initStream] at hcontra
  intro sched
  induction sched with
  | nil => intro s hs; simpa using hs
  | cons a rest ih =>
    intro s hs
    exact ih _ (streamStep_inv outcome msgs s a hs)

/-! ## Plumbing lemmas for the recall engine -/

theorem mem_sortDescBy {α : Type} {gt : α → α → Bool} {l : List α} {z : α} :
    z ∈ sortDescBy gt l ↔ z ∈ l :=
  (sortDescBy_perm gt l).mem_iff

theorem repo_select_subset (f : MemoryEntry → Bool) (store : List MemoryEntry) (limit : Nat) :
    ∀ z ∈ (sortDescBy createdGt (store.filter f)).take limit, z ∈ store := by
  intro z hz
  have hz1 : z ∈ sortDescBy createdGt (store.filter f) := List.take_subset _ _ hz
  have hz2 : z ∈ store.filter f := mem_sortDescBy.mp hz1
  exact List.mem_of_mem_filter hz2

theorem repo_select_ids_nodup (f : MemoryEntry → Bool) (store : List MemoryEntry) (limit : Nat)
    (h : (store.map MemoryEntry.id).Nodup) :
    (((sortDescBy createdGt (store.filter f)).take limit).map MemoryEntry.id).Nodup := by
  have h1 : ((store.filter f).map MemoryEntry.id).Nodup :=
    h.sublist (List.Sublist.map _ (List.filter_sublist store))
  have hperm : ((store.filter f).map MemoryEntry.id).Perm
      ((sortDescBy createdGt (store.filter f)).map MemoryEntry.id) :=
    ((sortDescBy_perm createdGt (store.filter f)).symm.map _)
  have h2 : ((sortDescBy createdGt (store.filter f)).map MemoryEntry.id).Nodup :=
    hperm.nodup_iff.mp h1
  exact h2.sublist (List.Sublist.map _ (List.take_sublist _ _))

theorem dedupAppend_cases (res : List MemoryEntry) (e : MemoryEntry) :
    dedupAppend res e = res ∨
      (dedupAppend res e = res ++ [e] ∧ ∀ r ∈ res, r.id ≠ e.id) := by
  by_cases h : res.any (fun r => r.id == e.id) = true
  · left
    simp [dedupAppend, h]
  · right
    refine ⟨by simp [dedupAppend, h], ?_⟩
    intro r hr hcontra
    apply h
    simp only [List.any_eq_true]
    exact ⟨r, hr, by simp [hcontra]⟩

theorem foldl_dedupAppend_subset (l : List MemoryEntry) :
    ∀ res, ∀ z ∈ l.foldl dedupAppend res, z ∈ res ∨ z ∈ l := by
  induction l with
  | nil => intro res z hz; exact Or.inl hz
  | cons x xs ih =>
    intro res z hz
    rcases ih (dedupAppend res x) z hz with h' | h'
    · rcases dedupAppend_cases res x with he | ⟨he, _⟩
      · rw [he] at h'
        exact Or.inl h'
      · rw [he] at h'
        rcases List.mem_append.mp h' with h'' | h''
        · exact Or.inl h''
        · right
          simp only [List.mem_singleton] at h''
          simp [h'']
    · exact Or.inr (List.mem_cons_of_mem _ h')

theorem foldl_dedupAppend_ids_nodup (l : List MemoryEntry) :
    ∀ res, (res.map MemoryEntry.id).Nodup →
      ((l.foldl dedupAppend res).map MemoryEntry.id).Nodup := by
  induction l with
  | nil => intro res h; simpa using h
  | cons x xs ih =>
    intro res h
    refine ih _ ?_
    rcases dedupAppend_cases res x with he | ⟨he, hne⟩
    · rw [he]
      exact h
    · rw [he, List.map_append, List.nodup_append]
      refine ⟨h, List.nodup_singleton _, ?_⟩
      intro a ha hb
      simp only [List.map_cons, List.map_nil, List.mem_singleton] at hb
      rcases List.mem_map.mp ha with ⟨r, hr, rfl⟩
      exact hne r hr hb

theorem merged_subset (kws : List String) (store : List MemoryEntry) (limit : Nat) :
    ∀ res, (∀ z ∈ res, z ∈ store) →
      ∀ z ∈ kws.foldl (fun res kw => (search_by_text store kw limit).foldl dedupAppend res) res,
        z ∈ store := by
  induction kws with
  | nil => intro res h z hz; exact h z hz
  | cons kw rest ih =>
    intro res h z hz
    refine ih _ ?_ z hz
    intro y hy
    rcases foldl_dedupAppend_subset _ _ y hy with h' | h'
    · exact h y h'
    · exact repo_select_subset (fun e => likeContains e.parsed_question kw) store limit y h'

theorem merged_ids_nodup (kws : List String) (store : List MemoryEntry) (limit : Nat) :
    ∀ res, (res.map MemoryEntry.id).Nodup →
      ((kws.foldl (fun res kw => (search_by_text store kw limit).foldl dedupAppend res) res).map
        MemoryEntry.id).Nodup := by
  induction kws with
  | nil => intro res h; simpa using h
  | cons kw rest ih =>
    intro res h
    exact ih _ (foldl_dedupAppend_ids_nodup _ _ h)

/-- Unfolding of "`b` does not sort strictly before `a`" for the
`(correct, created_at)` descending key. -/
theorem entryGt_eq_false_iff (a b : MemoryEntry) :
    entryGt b a = false ↔
      (correctRank b ≤ correctRank a ∧
       (correctRank a = correctRank b → strLtb a.created_at b.created_at = false)) := by
  simp only [entryGt, Bool.or_eq_false_iff, Bool.and_eq_false_iff,
    decide_eq_false_iff_not, beq_eq_false_iff_ne, ne_eq]
  constructor
  · rintro ⟨h1, h2⟩
    refine ⟨by omega, ?_⟩
    intro heq
    rcases h2 with h2 | h2
    · omega
    · exact h2
  · rintro ⟨h1, h2⟩
    refine ⟨by omega, ?_⟩
    by_cases heq : correctRank a = correctRank b
    · exact Or.inr (h2 heq)
    · exact Or.inl (by omega)

/-! ## Feedback-update lemmas and the store claims -/

/-- A concrete stored entry, for witnesses. -/
def mkEntry (i q t : String) (fb : Option String) (created : String) : MemoryEntry :=
  { id := i, original_input := q, input_type := "text", parsed_question := q,
    topic := t, retrieved_context := "[]", final_answer := "42",
    solution_steps := "[]", verifier_outcome := "{}", confidence := 1,
    requires_human_review := false, user_feedback := fb, feedback_comment := none,
    created_at := created, updated_at := created }

theorem update_feedback_ids (store : List MemoryEntry) (i fb : String)
    (c : Option String) (now : String) :
    (update_feedback store i fb c now).1.map MemoryEntry.id = store.map MemoryEntry.id := by
  simp only [update_feedback, List.map_map]
  apply List.map_congr_left
  intro e _
  by_cases h : e.id = i <;> simp [h, Function.comp]

theorem update_feedback_created (store : List MemoryEntry) (i fb : String)
    (c : Option String) (now : String) :
    (update_feedback store i fb c now).1.map MemoryEntry.created_at =
      store.map MemoryEntry.created_at := by
  simp only [update_feedback, List.map_map]
  apply List.map_congr_left
  intro e _
  by_cases h : e.id = i <;> simp [h, Function.comp]

/-- **C4**: `update_feedback` on an id absent from the store does not throw
and leaves the store unchanged — but its success flag is `true`, because the
SQL UPDATE matching zero rows is not an error and the row count is never
checked. (The spec requires an unsuccessful return here; the callers in
`app/api/feedback.py` test `if not success:` to produce a 404, a branch this
return value makes unreachable, contradicting the docstring
"True if updated successfully".) -/
theorem update_feedback_missing_id (store : List MemoryEntry)
    (entry_id feedback : String) (comment : Option String) (now : String)
    (h : ∀ e ∈ store, e.id ≠ entry_id) :
    update_feedback store entry_id feedback comment now = (store, true) := by
  have hmap : ∀ (l : List MemoryEntry), (∀ e ∈ l, e.id ≠ entry_id) →
      l.map (fun e =>
        if e.id = entry_id then
          { e with user_feedback := some feedback, feedback_comment := comment, updated_at := now }
        else e) = l := by
    intro l
    induction l with
    | nil => intro _; rfl
    | cons e es ih =>
      intro hl
      have h1 : e.id ≠ entry_id := hl e (List.mem_cons_self e es)
      have h2 : ∀ x ∈ es, x.id ≠ entry_id := fun x hx => hl x (List.mem_cons_of_mem e hx)
      simp [h1, ih h2]
  simp only [update_feedback]
  rw [hmap store h]

def c4store : List MemoryEntry :=
  [mkEntry "mem_1" "solve x" "algebra" none "2024-01-01T00:00:00"]

theorem update_feedback_missing_id_witness :
    (∀ e ∈ c4store, e.id ≠ "mem_missing") ∧
    update_feedback c4store "mem_missing" "correct" none "2024-03-01T00:00:00" =
      (c4store, true) :=
  ⟨by decide,
   update_feedback_missing_id c4store "mem_missing" "correct" none "2024-03-01T00:00:00"
     (by decide)⟩

/-- **C9**: marking an existing entry `correct` twice is idempotent on the
terminal state: the entry's feedback is still `correct`, its `updated_at`
is the second timestamp (strictly later than the first, which in turn is
what the first call wrote), and no entry is created or removed. -/
theorem update_feedback_idempotent (store : List MemoryEntry) (i t1 t2 : String)
    (e0 : MemoryEntry) (he : e0 ∈ store) (hid : e0.id = i) (hlt : strLtb t1 t2 = true) :
    ((update_feedback ((update_feedback store i "correct" none t1).1) i "correct" none t2).1.length
        = store.length) ∧
    ((update_feedback ((update_feedback store i "correct" none t1).1) i "correct" none t2).1.map
        MemoryEntry.id = store.map MemoryEntry.id) ∧
    (∀ x ∈ (update_feedback store i "correct" none t1).1, x.id = i →
        x.user_feedback = some "correct" ∧ x.updated_at = t1) ∧
    (∀ x ∈ (update_feedback ((update_feedback store i "correct" none t1).1) i "correct" none
        t2).1, x.id = i → x.user_feedback = some "correct" ∧ x.updated_at = t2) ∧
    (∃ x ∈ (update_feedback ((update_feedback store i "correct" none t1).1) i "correct" none
        t2).1, x.id = i) ∧
    (∀ x ∈ (update_feedback store i "correct" none t1).1,
     ∀ y ∈ (update_feedback ((update_feedback store i "correct" none t1).1) i "correct" none
        t2).1, x.id = i → y.id = i → strLtb x.updated_at y.updated_at = true) := by
  have hone : ∀ (l : List MemoryEntry) (t : String),
      ∀ x ∈ (update_feedback l i "correct" none t).1, x.id = i →
        x.user_feedback = some "correct" ∧ x.updated_at = t := by
    intro l t x hx hxid
    simp only [update_feedback] at hx
    rcases List.mem_map.mp hx with ⟨e, _, rfl⟩
    by_cases hcase : e.id = i
    · simp [hcase]
    · exfalso
      apply hcase
      simp [hcase] at hxid
  refine ⟨?_, ?_, hone store t1, hone _ t2, ?_, ?_⟩
  · simp [update_feedback]
  · rw [update_feedback_ids, update_feedback_ids]
  · refine ⟨(fun e => if e.id = i then
        { e with user_feedback := some "correct", feedback_comment := none, updated_at := t2 }
      else e) ((fun e => if e.id = i then
        { e with user_feedback := some "correct", feedback_comment := none, updated_at := t1 }
      else e) e0), ?_, ?_⟩
    · simp only [update_feedback]
      exact List.mem_map_of_mem _ (List.mem_map_of_mem _ he)
    · by_cases hcase : e0.id = i <;> simp [hcase, hid]
  · intro x hx y hy hxid hyid
    have h1 := (hone store t1 x hx hxid).2
    have h2 := (hone _ t2 y hy hyid).2
    rw [h1, h2]
    exact hlt

def c9store : List MemoryEntry :=
  [mkEntry "mem_1" "solve x" "algebra" none "2024-01-01T00:00:00",
   mkEntry "mem_2" "area of circle" "geometry" (some "incorrect") "2024-01-02T00:00:00"]

theorem update_feedback_idempotent_witness :
    ((mkEntry "mem_1" "solve x" "algebra" none "2024-01-01T00:00:00") ∈ c9store) ∧
    ((mkEntry "mem_1" "solve x" "algebra" none "2024-01-01T00:00:00").id = "mem_1") ∧
    (strLtb "2024-02-01T00:00:00" "2024-02-02T00:00:00" = true) ∧
    (((update_feedback ((update_feedback c9store "mem_1" "correct" none
        "2024-02-01T00:00:00").1) "mem_1" "correct" none "2024-02-02T00:00:00").1.length
        = c9store.length) ∧
     ((update_feedback ((update_feedback c9store "mem_1" "correct" none
        "2024-02-01T00:00:00").1) "mem_1" "correct" none "2024-02-02T00:00:00").1.map
        MemoryEntry.id = c9store.map MemoryEntry.id) ∧
     (∀ x ∈ (update_feedback c9store "mem_1" "correct" none "2024-02-01T00:00:00").1,
        x.id = "mem_1" → x.user_feedback = some "correct" ∧
          x.updated_at = "2024-02-01T00:00:00") ∧
     (∀ x ∈ (update_feedback ((update_feedback c9store "mem_1" "correct" none
        "2024-02-01T00:00:00").1) "mem_1" "correct" none "2024-02-02T00:00:00").1,
        x.id = "mem_1" → x.user_feedback = some "correct" ∧
          x.updated_at = "2024-02-02T00:00:00") ∧
     (∃ x ∈ (update_feedback ((update_feedback c9store "mem_1" "correct" none
        "2024-02-01T00:00:00").1) "mem_1" "correct" none "2024-02-02T00:00:00").1,
        x.id = "mem_1") ∧
     (∀ x ∈ (update_feedback c9store "mem_1" "correct" none "2024-02-01T00:00:00").1,
      ∀ y ∈ (update_feedback ((update_feedback c9store "mem_1" "correct" none
        "2024-02-01T00:00:00").1) "mem_1" "correct" none "2024-02-02T00:00:00").1,
        x.id = "mem_1" → y.id = "mem_1" →
          strLtb x.updated_at y.updated_at = true)) :=
  ⟨by decide, by decide, by decide,
   update_feedback_idempotent c9store "mem_1" "2024-02-01T00:00:00" "2024-02-02T00:00:00"
     (mkEntry "mem_1" "solve x" "algebra" none "2024-01-01T00:00:00")
     (by decide) (by decide) (by decide)⟩

/-- **C10** (frame): `update_feedback` keeps the store's length, every id
and every `created_at`; a non-matching row is untouched; the matching
row changes exactly `user_feedback`, `feedback_comment` and `updated_at`
(the structure-update on the right fixes every other field); and the
stored comment is always overwritten with the `comment` argument — in
particular with `none` when the comment is omitted. -/
theorem update_feedback_frame (store : List MemoryEntry) (i fb : String)
    (c : Option String) (now : String) (k : Nat) (hk : k < store.length)
    (hk2 : k < (update_feedback store i fb c now).1.length) :
    ((update_feedback store i fb c now).1.length = store.length) ∧
    ((update_feedback store i fb c now).1.map MemoryEntry.id = store.map MemoryEntry.id) ∧
    ((update_feedback store i fb c now).1.map MemoryEntry.created_at =
        store.map MemoryEntry.created_at) ∧
    ((store.get ⟨k, hk⟩).id ≠ i →
        (update_feedback store i fb c now).1.get ⟨k, hk2⟩ = store.get ⟨k, hk⟩) ∧
    ((store.get ⟨k, hk⟩).id = i →
        (update_feedback store i fb c now).1.get ⟨k, hk2⟩ =
          { store.get ⟨k, hk⟩ with user_feedback := some fb, feedback_comment := c, updated_at := now }) ∧
    (∀ x ∈ (update_feedback store i fb c now).1, x.id = i → x.feedback_comment = c) := by
  have hget : (update_feedback store i fb c now).1.get ⟨k, hk2⟩ =
      (fun e => if e.id = i then
        { e with user_feedback := some fb, feedback_comment := c, updated_at := now }
      else e) (store.get ⟨k, hk⟩) := by
    simp only [update_feedback]
    simp [List.get_eq_getElem, List.getElem_map]
  refine ⟨by simp [update_feedback], update_feedback_ids store i fb c now,
    update_feedback_created store i fb c now, ?_, ?_, ?_⟩
  · intro hne
    rw [hget]
    simp only [if_neg hne]
  · intro heq
    rw [hget]
    simp only [if_pos heq]
  · intro x hx hxid
    simp only [update_feedback] at hx
    rcases List.mem_map.mp hx with ⟨e, _, rfl⟩
    by_cases hcase : e.id = i
    · simp [hcase]
    · exfalso
      apply hcase
      simp [hcase] at hxid

def c10store : List MemoryEntry :=
  [mkEntry "mem_1" "solve x" "algebra" (some "incorrect") "2024-01-01T00:00:00",
   mkEntry "mem_2" "area of circle" "geometry" none "2024-01-02T00:00:00"]

theorem c10_hk : 0 < c10store.length := by decide

theorem c10_hk2 :
    0 < (update_feedback c10store "mem_1" "correct" none "2024-03-01T00:00:00").1.length := by
  decide

theorem update_feedback_frame_witness :
    (0 < c10store.length) ∧
    (0 < (update_feedback c10store "mem_1" "correct" none "2024-03-01T00:00:00").1.length) ∧
    (((update_feedback c10store "mem_1" "correct" none "2024-03-01T00:00:00").1.length =
        c10store.length) ∧
     ((update_feedback c10store "mem_1" "correct" none "2024-03-01T00:00:00").1.map
        MemoryEntry.id = c10store.map MemoryEntry.id) ∧
     ((update_feedback c10store "mem_1" "correct" none "2024-03-01T00:00:00").1.map
        MemoryEntry.created_at = c10store.map MemoryEntry.created_at) ∧
     ((c10store.get ⟨0, c10_hk⟩).id ≠ "mem_1" →
        (update_feedback c10store "mem_1" "correct" none "2024-03-01T00:00:00").1.get
          ⟨0, c10_hk2⟩ = c10store.get ⟨0, c10_hk⟩) ∧
     ((c10store.get ⟨0, c10_hk⟩).id = "mem_1" →
        (update_feedback c10store "mem_1" "correct" none "2024-03-01T00:00:00").1.get
          ⟨0, c10_hk2⟩ =
          { c10store.get ⟨0, c10_hk⟩ with user_feedback := some "correct", feedback_comment := none, updated_at := "2024-03-01T00:00:00" }) ∧
     (∀ x ∈ (update_feedback c10store "mem_1" "correct" none "2024-03-01T00:00:00").1,
        x.id = "mem_1" → x.feedback_comment = none)) :=
  ⟨c10_hk, c10_hk2,
   update_feedback_frame c10store "mem_1" "correct" none "2024-03-01T00:00:00" 0
     c10_hk c10_hk2⟩

/-! ## Orchestrator lemmas -/

theorem parser_signal_iff (s : Settings) (pr : ParserResp) :
    (parser_execute s pr).requires_human_review = true ↔
      (s.PARSER_AMBIGUITY_THRESHOLD ≤ pr.ambiguities.length ∨
        pr.needs_clarification = true) := by
  simp [parser_execute]

theorem verifier_signal_iff (s : Settings) (vr : VerifierResp) :
    (verifier_execute s vr).requires_human_review = true ↔
      (vr.confidence < s.VERIFIER_CONFIDENCE_THRESHOLD ∨ vr.correctness_issues ≠ [] ∨
        vr.requires_human_review = true) := by
  simp [verifier_execute, List.length_pos, or_assoc]

/-- The trace of a completed synchronous run. -/
def syncOkTrace (gEnabled : Bool) : List AgentTrace :=
  (if gEnabled then [⟨"guardrail", true, none⟩] else []) ++
    [⟨"parser", true, none⟩, ⟨"intent_router", true, none⟩, ⟨"solver", true, none⟩,
     ⟨"verifier", true, none⟩, ⟨"explainer", true, none⟩]

/-- The trace of a completed async run. -/
def asyncOkTrace (gEnabled : Bool) (solverName : String) : List AgentTrace :=
  (if gEnabled then [⟨"guardrail", true, none⟩] else []) ++
    [⟨"parser", true, none⟩, ⟨"intent_router", true, none⟩, ⟨solverName, true, none⟩,
     ⟨"verifier", true, none⟩, ⟨"explainer", true, none⟩]

/-- The `hitl_reasons` list assembled by the synchronous orchestrator. -/
def hitlReasons (s : Settings) (pr : ParserResp) (vr : VerifierResp) : List String :=
  (if (parser_execute s pr).requires_human_review then ["parser_ambiguity"] else []) ++
  (if (verifier_execute s vr).requires_human_review then ["verifier_low_confidence"] else [])

/-- Normal form of a completed synchronous pipeline run (guardrails
disabled or passing, all stages succeeding). -/
theorem execute_pipeline_ok (s : Settings) (g : GuardrailOutput) (pr : ParserResp)
    (ro : RouterOutput) (so : SolverOutput) (vr : VerifierResp) (ex : ExplainerOutput)
    (eg : Bool) (hguard : ((eg && s.ENABLE_GUARDRAILS) && !g.should_continue) = false) :
    execute_pipeline s ⟨g, .ok pr, .ok ro, .ok so, .ok vr, .ok ex⟩ eg =
      (.ok { final_answer := so.answer
             explanation := ex.explanation
             confidence := (verifier_execute s vr).confidence
             requires_human_review := decide (0 < (hitlReasons s pr vr).length)
             hitl_reasons := some (hitlReasons s pr vr)
             agent_trace := syncOkTrace (eg && s.ENABLE_GUARDRAILS) },
       syncOkTrace (eg && s.ENABLE_GUARDRAILS)) := by
  simp [execute_pipeline, hguard, hitlReasons, syncOkTrace]

/-- Normal form of a completed async pipeline run. -/
theorem async_execute_pipeline_ok (s : Settings) (lcAvail : Bool) (g : GuardrailOutput)
    (pr : ParserResp) (ro : RouterOutput) (so : SolverOutput) (vr : VerifierResp)
    (ex : ExplainerOutput) (eg : Bool)
    (hguard : ((eg && s.ENABLE_GUARDRAILS) && !g.should_continue) = false) :
    async_execute_pipeline s lcAvail ⟨g, .ok pr, .ok ro, .ok so, .ok vr, .ok ex⟩ eg =
      (.ok { final_answer := so.answer
             explanation := ex.explanation
             confidence := (verifier_execute s vr).confidence
             requires_human_review := (verifier_execute s vr).requires_human_review
             hitl_reasons := none
             agent_trace := asyncOkTrace (eg && s.ENABLE_GUARDRAILS)
               (if s.USE_LANGCHAIN_REACT && lcAvail then "langchain_react_solver"
                else "solver") },
       asyncOkTrace (eg && s.ENABLE_GUARDRAILS)
         (if s.USE_LANGCHAIN_REACT && lcAvail then "langchain_react_solver" else "solver")) := by
  simp [async_execute_pipeline, hguard, asyncOkTrace]

/-! ## Claims C1, C2, C6 -/

def c1settings : Settings :=
  { ENABLE_GUARDRAILS := true, USE_LANGCHAIN_REACT := true,
    VERIFIER_CONFIDENCE_THRESHOLD := 1, PARSER_AMBIGUITY_THRESHOLD := 1 }

def c1guard : GuardrailOutput :=
  { is_safe := true, violations := [], risk_level := "low", should_continue := true }

def c1parser : ParserResp :=
  { problem_text := "find the area", topic := "geometry",
    ambiguities := ["units of the radius are not given"], needs_clarification := false }

def c1router : RouterOutput := { problem_type := "geometry", difficulty_level := "easy" }

def c1solver : SolverOutput := { answer := "area = 3", tools_used := [] }

def c1verifier : VerifierResp :=
  { is_correct := true, confidence := 1, correctness_issues := [],
    requires_human_review := false }

def c1explainer : ExplainerOutput :=
  { explanation := "use the formula", step_by_step := ["apply the formula"],
    difficulty_rating := "easy" }

def c1behaviors : StageBehaviors :=
  ⟨c1guard, .ok c1parser, .ok c1router, .ok c1solver, .ok c1verifier, .ok c1explainer⟩

/-- **C1** counterexample: a completed streaming/async-mode run in which
the parser's detected ambiguity count meets the configured threshold
while the verifier is clean (confidence at threshold, no issues). The
claimed OR of stage signals is true, yet the returned
`requires_human_review` is `false`, and the async result carries no
review-reasons list at all — so the claimed biconditional fails in the
async execution mode. -/
theorem hitl_async_mode_counterexample :
    ((async_execute_pipeline c1settings true c1behaviors true).1.toOption.map
        (fun o => o.requires_human_review) = some false) ∧
    ((async_execute_pipeline c1settings true c1behaviors true).1.toOption.map
        (fun o => o.hitl_reasons) = some none) ∧
    (c1settings.PARSER_AMBIGUITY_THRESHOLD ≤ c1parser.ambiguities.length) :=
  ⟨rfl, rfl, by decide⟩

/-- **C1** (amended): on completed runs, the synchronous orchestrator's
`requiresHumanReview` is the OR of the parser signal — ambiguity count ≥
threshold OR the response's `needs_clarification` flag — and the verifier
signal — confidence < threshold OR issues non-empty OR the response's own
`requires_human_review` flag — with `metadata["hitl_reasons"]` holding
exactly the tags of the signals that fired and no others; the async
(streaming-mode) orchestrator instead returns the verifier signal alone
and carries no review-reasons list. -/
theorem hitl_aggregation_by_mode (s : Settings) (lcAvail : Bool) (g : GuardrailOutput)
    (pr : ParserResp) (ro : RouterOutput) (so : SolverOutput) (vr : VerifierResp)
    (ex : ExplainerOutput) (eg : Bool)
    (hpass : (eg && s.ENABLE_GUARDRAILS) = false ∨ g.should_continue = true) :
    ∃ out outA,
      (execute_pipeline s ⟨g, .ok pr, .ok ro, .ok so, .ok vr, .ok ex⟩ eg).1 = .ok out ∧
      (async_execute_pipeline s lcAvail ⟨g, .ok pr, .ok ro, .ok so, .ok vr, .ok ex⟩ eg).1 =
        .ok outA ∧
      (out.requires_human_review = true ↔
        ((s.PARSER_AMBIGUITY_THRESHOLD ≤ pr.ambiguities.length ∨
            pr.needs_clarification = true) ∨
         (vr.confidence < s.VERIFIER_CONFIDENCE_THRESHOLD ∨ vr.correctness_issues ≠ [] ∨
            vr.requires_human_review = true))) ∧
      (out.hitl_reasons = some
        ((if s.PARSER_AMBIGUITY_THRESHOLD ≤ pr.ambiguities.length ∨
              pr.needs_clarification = true
          then ["parser_ambiguity"] else []) ++
         (if vr.confidence < s.VERIFIER_CONFIDENCE_THRESHOLD ∨ vr.correctness_issues ≠ [] ∨
              vr.requires_human_review = true
          then ["verifier_low_confidence"] else []))) ∧
      (outA.requires_human_review = true ↔
        (vr.confidence < s.VERIFIER_CONFIDENCE_THRESHOLD ∨ vr.correctness_issues ≠ [] ∨
          vr.requires_human_review = true)) ∧
      outA.hitl_reasons = none := by
  have hguard : ((eg && s.ENABLE_GUARDRAILS) && !g.should_continue) = false := by
    rcases hpass with h | h
    · simp [h]
    · simp [h]
  rw [execute_pipeline_ok s g pr ro so vr ex eg hguard,
    async_execute_pipeline_ok s lcAvail g pr ro so vr ex eg hguard]
  refine ⟨_, _, rfl, rfl, ?_, ?_, ?_, rfl⟩
  · simp only [hitlReasons, decide_eq_true_eq, List.length_append]
    rw [← parser_signal_iff s pr, ← verifier_signal_iff s vr]
    cases hp : (parser_execute s pr).requires_human_review <;>
      cases hv : (verifier_execute s vr).requires_human_review <;> simp [hp, hv]
  · simp only [hitlReasons]
    rw [show (if s.PARSER_AMBIGUITY_THRESHOLD ≤ pr.ambiguities.length ∨
          pr.needs_clarification = true then ["parser_ambiguity"] else ([] : List String)) =
        (if (parser_execute s pr).requires_human_review then ["parser_ambiguity"] else [])
      from by by_cases h : (parser_execute s pr).requires_human_review = true <;>
        simp [h, (parser_signal_iff s pr).symm, ← parser_signal_iff s pr]]
    rw [show (if vr.confidence < s.VERIFIER_CONFIDENCE_THRESHOLD ∨
          vr.correctness_issues ≠ [] ∨ vr.requires_human_review = true
          then ["verifier_low_confidence"] else ([] : List String)) =
        (if (verifier_execute s vr).requires_human_review then ["verifier_low_confidence"]
          else [])
      from by by_cases h : (verifier_execute s vr).requires_human_review = true <;>
        simp [h, ← verifier_signal_iff s vr]]
  · exact verifier_signal_iff s vr

theorem hitl_aggregation_by_mode_witness :
    ((true && c1settings.ENABLE_GUARDRAILS) = false ∨ c1guard.should_continue = true) ∧
    (∃ out outA,
      (execute_pipeline c1settings
        ⟨c1guard, .ok c1parser, .ok c1router, .ok c1solver, .ok c1verifier,
          .ok c1explainer⟩ true).1 = .ok out ∧
      (async_execute_pipeline c1settings true
        ⟨c1guard, .ok c1parser, .ok c1router, .ok c1solver, .ok c1verifier,
          .ok c1explainer⟩ true).1 = .ok outA ∧
      (out.requires_human_review = true ↔
        ((c1settings.PARSER_AMBIGUITY_THRESHOLD ≤ c1parser.ambiguities.length ∨
            c1parser.needs_clarification = true) ∨
         (c1verifier.confidence < c1settings.VERIFIER_CONFIDENCE_THRESHOLD ∨
            c1verifier.correctness_issues ≠ [] ∨
            c1verifier.requires_human_review = true))) ∧
      (out.hitl_reasons = some
        ((if c1settings.PARSER_AMBIGUITY_THRESHOLD ≤ c1parser.ambiguities.length ∨
              c1parser.needs_clarification = true
          then ["parser_ambiguity"] else []) ++
         (if c1verifier.confidence < c1settings.VERIFIER_CONFIDENCE_THRESHOLD ∨
              c1verifier.correctness_issues ≠ [] ∨
              c1verifier.requires_human_review = true
          then ["verifier_low_confidence"] else []))) ∧
      (outA.requires_human_review = true ↔
        (c1verifier.confidence < c1settings.VERIFIER_CONFIDENCE_THRESHOLD ∨
          c1verifier.correctness_issues ≠ [] ∨
          c1verifier.requires_human_review = true)) ∧
      outA.hitl_reasons = none) :=
  ⟨Or.inr rfl,
   hitl_aggregation_by_mode c1settings true c1guard c1parser c1router c1solver c1verifier
     c1explainer true (Or.inr rfl)⟩

/-- **C2**: on an enabled-guardrails request where the Safety stage
signals "do not continue", the orchestrator raises the policy-violation
condition (`GuardrailViolation`, re-raised as itself) with a trace
holding exactly the one Safety entry; the result is the same for every
choice of later-stage behaviors, so no later stage runs. Any other stage
failure is instead wrapped into the distinct generic
`AgentError("Pipeline failed: ...")` carrying the original cause. -/
theorem guardrail_abort_semantics :
    (∀ (s : Settings) (b : StageBehaviors),
      s.ENABLE_GUARDRAILS = true → b.guardrail.should_continue = false →
      execute_pipeline s b true =
        (.error (.guardrailViolation
           ("Content policy violation: " ++ joinComma b.guardrail.violations)),
         [⟨"guardrail", true, none⟩])) ∧
    (∀ (s : Settings) (b : StageBehaviors) (eg : Bool) (e : String),
      ((eg && s.ENABLE_GUARDRAILS) = false ∨ b.guardrail.should_continue = true) →
      b.parser = .error e →
      (execute_pipeline s b eg).1 = .error (.agentError ("Pipeline failed: " ++ e))) ∧
    (∀ m1 m2, PipelineError.guardrailViolation m1 ≠ PipelineError.agentError m2) := by
  refine ⟨?_, ?_, ?_⟩
  · intro s b hen hstop
    simp [execute_pipeline, hen, hstop]
  · intro s b eg e hpass hparse
    have hguard : ((eg && s.ENABLE_GUARDRAILS) && !b.guardrail.should_continue) = false := by
      rcases hpass with h | h
      · simp [h]
      · simp [h]
    simp [execute_pipeline, hguard, hparse]
  · intro m1 m2 h
    exact PipelineError.noConfusion h

def c2guard : GuardrailOutput :=
  { is_safe := false, violations := ["non-educational content"], risk_level := "high",
    should_continue := false }

def c2behaviors : StageBehaviors :=
  { guardrail := c2guard, parser := .error "unused", router := .ok ⟨"algebra", "easy"⟩,
    solver := .ok ⟨"x = 1", []⟩, verifier := .error "unused",
    explainer := .ok ⟨"because", [], "easy"⟩ }

theorem guardrail_abort_semantics_witness :
    defaultSettings.ENABLE_GUARDRAILS = true ∧ c2behaviors.guardrail.should_continue = false ∧
    execute_pipeline defaultSettings c2behaviors true =
      (.error (.guardrailViolation
         ("Content policy violation: " ++ joinComma c2behaviors.guardrail.violations)),
       [⟨"guardrail", true, none⟩]) :=
  ⟨rfl, rfl, guardrail_abort_semantics.1 defaultSettings c2behaviors rfl rfl⟩

def c6settings : Settings :=
  { ENABLE_GUARDRAILS := true, USE_LANGCHAIN_REACT := true,
    VERIFIER_CONFIDENCE_THRESHOLD := 1, PARSER_AMBIGUITY_THRESHOLD := 1 }

def c6guard : GuardrailOutput :=
  { is_safe := true, violations := [], risk_level := "low", should_continue := true }

def c6parser : ParserResp :=
  { problem_text := "solve x+1=2", topic := "algebra", ambiguities := [],
    needs_clarification := false }

def c6router : RouterOutput := { problem_type := "algebra", difficulty_level := "easy" }

def c6solver : SolverOutput := { answer := "x = 1", tools_used := [] }

def c6verifier : VerifierResp :=
  { is_correct := true, confidence := 1, correctness_issues := [],
    requires_human_review := false }

def c6explainer : ExplainerOutput :=
  { explanation := "subtract 1 from both sides", step_by_step := ["subtract 1"],
    difficulty_rating := "easy" }

def c6behaviors : StageBehaviors :=
  ⟨c6guard, .ok c6parser, .ok c6router, .ok c6solver, .ok c6verifier, .ok c6explainer⟩

/-- **C6** counterexample: a completed run with guardrails enabled and
passing. The trace contains a Safety (`guardrail`) entry in front of the
five remaining stages, so it does not consist of exactly those five. -/
theorem trace_guardrail_entry_counterexample :
    c6settings.ENABLE_GUARDRAILS = true ∧ c6guard.should_continue = true ∧
    ((execute_pipeline c6settings c6behaviors true).2.map AgentTrace.agent_name =
      ["guardrail", "parser", "intent_router", "solver", "verifier", "explainer"]) ∧
    ((execute_pipeline c6settings c6behaviors true).2.map AgentTrace.agent_name ≠
      ["parser", "intent_router", "solver", "verifier", "explainer"]) := by
  refine ⟨rfl, rfl, by decide, by decide⟩

/-- **C6** (amended): on a completed run (Safety disabled or passing,
every stage succeeding), the trace lists Parse, Classify, Solve, Verify,
Explain in that fixed order, each exactly once, and nothing else — except
that when guardrails are enabled (and pass) the Safety entry additionally
precedes them. -/
theorem trace_stage_sequence (s : Settings) (g : GuardrailOutput) (pr : ParserResp)
    (ro : RouterOutput) (so : SolverOutput) (vr : VerifierResp) (ex : ExplainerOutput)
    (eg : Bool) (hpass : g.should_continue = true) :
    ((eg && s.ENABLE_GUARDRAILS) = false →
      (execute_pipeline s ⟨g, .ok pr, .ok ro, .ok so, .ok vr, .ok ex⟩ eg).2.map
          AgentTrace.agent_name =
        ["parser", "intent_router", "solver", "verifier", "explainer"]) ∧
    ((eg && s.ENABLE_GUARDRAILS) = true →
      (execute_pipeline s ⟨g, .ok pr, .ok ro, .ok so, .ok vr, .ok ex⟩ eg).2.map
          AgentTrace.agent_name =
        ["guardrail", "parser", "intent_router", "solver", "verifier", "explainer"]) := by
  have hguard : ((eg && s.ENABLE_GUARDRAILS) && !g.should_continue) = false := by
    simp [hpass]
  rw [execute_pipeline_ok s g pr ro so vr ex eg hguard]
  constructor
  · intro hdis
    simp [syncOkTrace, hdis]
  · intro hen
    simp [syncOkTrace, hen]

theorem trace_stage_sequence_witness :
    (c6guard.should_continue = true) ∧
    (((true && c6settings.ENABLE_GUARDRAILS) = false →
      (execute_pipeline c6settings
        ⟨c6guard, .ok c6parser, .ok c6router, .ok c6solver, .ok c6verifier,
          .ok c6explainer⟩ true).2.map AgentTrace.agent_name =
        ["parser", "intent_router", "solver", "verifier", "explainer"]) ∧
     ((true && c6settings.ENABLE_GUARDRAILS) = true →
      (execute_pipeline c6settings
        ⟨c6guard, .ok c6parser, .ok c6router, .ok c6solver, .ok c6verifier,
          .ok c6explainer⟩ true).2.map AgentTrace.agent_name =
        ["guardrail", "parser", "intent_router", "solver", "verifier", "explainer"])) :=
  ⟨rfl,
   trace_stage_sequence c6settings c6guard c6parser c6router c6solver c6verifier c6explainer
     true rfl⟩

/-! ## Claims C3, C5, C7, C8 -/

theorem fsTopicResults_subset (store : List MemoryEntry) (topic : Option String)
    (limit : Nat) : ∀ z ∈ fsTopicResults store topic limit, z ∈ store := by
  intro z hz
  cases topic with
  | none => simp [fsTopicResults] at hz
  | some t =>
    simp only [fsTopicResults] at hz
    by_cases ht : t == ""
    · simp [ht] at hz
    · rw [if_neg ht] at hz
      exact repo_select_subset (fun e => e.topic == t) store limit z hz

theorem fsTopicResults_ids_nodup (store : List MemoryEntry) (topic : Option String)
    (limit : Nat) (h : (store.map MemoryEntry.id).Nodup) :
    ((fsTopicResults store topic limit).map MemoryEntry.id).Nodup := by
  cases topic with
  | none => simp [fsTopicResults]
  | some t =>
    simp only [fsTopicResults]
    by_cases ht : t == ""
    · simp [ht]
    · rw [if_neg ht]
      exact repo_select_ids_nodup (fun e => e.topic == t) store limit h

theorem fsMerged_subset (store : List MemoryEntry) (query : String)
    (topic : Option String) (limit : Nat) :
    ∀ z ∈ fsMerged store query topic limit, z ∈ store :=
  merged_subset ((extract_keywords query).take 3) store limit
    (fsTopicResults store topic limit) (fsTopicResults_subset store topic limit)

theorem fsMerged_ids_nodup (store : List MemoryEntry) (query : String)
    (topic : Option String) (limit : Nat) (h : (store.map MemoryEntry.id).Nodup) :
    ((fsMerged store query topic limit).map MemoryEntry.id).Nodup :=
  merged_ids_nodup ((extract_keywords query).take 3) store limit
    (fsTopicResults store topic limit) (fsTopicResults_ids_nodup store topic limit h)

def c5entryTopic : MemoryEntry :=
  mkEntry "mem_a" "solve x+1=2" "algebra" (some "correct") "2024-01-01T00:00:00"

def c5entryKeyword : MemoryEntry :=
  mkEntry "mem_b" "compute x+1=2 quickly" "arithmetic" (some "incorrect")
    "2024-02-01T00:00:00"

/-- **C5**: on any store with distinct ids, `find_similar_problems`
returns at most `limit` entries with pairwise-distinct ids, all drawn
from the store, ordered so that no later entry has a greater
`(correct, created_at)` key — every correct-feedback entry precedes
every other, and among equal feedback no later entry is newer. On the
spec's concrete scenario (one exact-topic correct entry, one
keyword-only incorrect entry, `limit = 2`) it returns the exact-topic
entry first. -/
theorem find_similar_ranking (store : List MemoryEntry) (query : String)
    (topic : Option String) (limit : Nat)
    (hnodup : (store.map MemoryEntry.id).Nodup) (_hpos : 0 < limit) :
    ((find_similar_problems store query topic limit).length ≤ limit) ∧
    (((find_similar_problems store query topic limit).map MemoryEntry.id).Nodup) ∧
    ((find_similar_problems store query topic limit).Pairwise
      (fun a b => correctRank b ≤ correctRank a ∧
        (correctRank a = correctRank b → strLtb a.created_at b.created_at = false))) ∧
    (∀ e ∈ find_similar_problems store query topic limit, e ∈ store) ∧
    (find_similar_problems [c5entryTopic, c5entryKeyword] "solve x+1=2" (some "algebra") 2 =
      [c5entryTopic, c5entryKeyword]) := by
  refine ⟨?_, ?_, ?_, ?_, by decide⟩
  · simp only [find_similar_problems]
    exact List.length_take_le _ _
  · simp only [find_similar_problems]
    have h1 := fsMerged_ids_nodup store query topic limit hnodup
    have hperm : ((sortDescBy entryGt (fsMerged store query topic limit)).map
        MemoryEntry.id).Perm ((fsMerged store query topic limit).map MemoryEntry.id) :=
      (sortDescBy_perm entryGt (fsMerged store query topic limit)).map _
    exact (hperm.nodup_iff.mpr h1).sublist (List.Sublist.map _ (List.take_sublist _ _))
  · simp only [find_similar_problems]
    have hs : SortedDesc entryGt (sortDescBy entryGt (fsMerged store query topic limit)) :=
      sortDescBy_sorted entryGt_trans entryGt_asymm _
    have hs2 : SortedDesc entryGt
        ((sortDescBy entryGt (fsMerged store query topic limit)).take limit) :=
      hs.sublist (List.take_sublist _ _)
    exact hs2.imp (fun h => (entryGt_eq_false_iff _ _).mp h)
  · intro e he
    simp only [find_similar_problems] at he
    have h1 : e ∈ sortDescBy entryGt (fsMerged store query topic limit) :=
      List.take_subset _ _ he
    exact fsMerged_subset store query topic limit e (mem_sortDescBy.mp h1)

theorem find_similar_ranking_witness :
    (([c5entryTopic, c5entryKeyword].map MemoryEntry.id).Nodup) ∧ (0 < 2) ∧
    ((find_similar_problems [c5entryTopic, c5entryKeyword] "solve x+1=2" (some "algebra")
        2).length ≤ 2) ∧
    ((find_similar_problems [c5entryTopic, c5entryKeyword] "solve x+1=2" (some "algebra")
        2).map MemoryEntry.id).Nodup ∧
    ((find_similar_problems [c5entryTopic, c5entryKeyword] "solve x+1=2" (some "algebra")
        2).Pairwise
      (fun a b => correctRank b ≤ correctRank a ∧
        (correctRank a = correctRank b → strLtb a.created_at b.created_at = false))) ∧
    (∀ e ∈ find_similar_problems [c5entryTopic, c5entryKeyword] "solve x+1=2"
        (some "algebra") 2, e ∈ [c5entryTopic, c5entryKeyword]) ∧
    (find_similar_problems [c5entryTopic, c5entryKeyword] "solve x+1=2" (some "algebra") 2 =
      [c5entryTopic, c5entryKeyword]) := by
  have h := find_similar_ranking [c5entryTopic, c5entryKeyword] "solve x+1=2"
    (some "algebra") 2 (by decide) (by decide)
  exact ⟨by decide, by decide, h.1, h.2.1, h.2.2.1, h.2.2.2.1, h.2.2.2.2⟩

def c8entry : MemoryEntry :=
  mkEntry "mem_c" "factor the expression" "Algebra" (some "correct") "2024-01-01T00:00:00"

/-- **C8** counterexample: a stored correct entry whose topic `"Algebra"`
equals the queried topic `"algebra"` up to letter case. The repository
topic fetch used by findSimilar (SQLite `topic = ?`, BINARY collation)
returns nothing — and findSimilar itself returns nothing when the query
yields no keywords — whereas getPatterns does project the entry, because
its filter lowercases both sides. So topic matching is case-insensitive
only in getPatterns, not in findSimilar's topic fetch. -/
theorem topic_case_sensitivity_counterexample :
    (lowerStr c8entry.topic = lowerStr "algebra") ∧ (c8entry.topic ≠ "algebra") ∧
    (get_entries_by_topic [c8entry] "algebra" 10 = []) ∧
    (find_similar_problems [c8entry] "it" (some "algebra") 3 = []) ∧
    (get_solution_patterns [c8entry] "algebra" 5 =
      [⟨c8entry.parsed_question, c8entry.solution_steps, c8entry.final_answer,
        c8entry.confidence⟩]) := by
  refine ⟨by decide, by decide, by decide, by decide, by decide⟩

def c8exact : MemoryEntry :=
  mkEntry "mem_d" "expand the product" "algebra" none "2024-01-01T00:00:00"

/-- **C8** (amended): the topic fetch used by findSimilar is
case-SENSITIVE — every entry it returns has a topic exactly equal to the
query topic, so a case-differing match is never among them — while
getPatterns' topic filter is case-insensitive: any correct-feedback
entry whose topic matches the query up to case is projected into the
patterns, provided the store's correct entries fit within the fetch
bound `limit`. -/
theorem topic_matching_amended :
    (∀ (store : List MemoryEntry) (t : String) (l : Nat),
      ∀ e ∈ get_entries_by_topic store t l, e.topic = t) ∧
    (∀ (store : List MemoryEntry) (e : MemoryEntry) (topic : String) (limit : Nat),
      e ∈ store → e.user_feedback = some "correct" →
      lowerStr e.topic = lowerStr topic →
      (store.filter (fun x => x.user_feedback == some "correct")).length ≤ limit →
      (⟨e.parsed_question, e.solution_steps, e.final_answer, e.confidence⟩ :
        SolutionPattern) ∈ get_solution_patterns store topic limit) := by
  constructor
  · intro store t l e he
    have h1 : e ∈ sortDescBy createdGt (store.filter (fun x => x.topic == t)) :=
      List.take_subset _ _ he
    have h2 := List.mem_filter.mp (mem_sortDescBy.mp h1)
    simpa using h2.2
  · intro store e topic limit he hfb htop hlen
    have hecf : e ∈ store.filter (fun x => x.user_feedback == some "correct") :=
      List.mem_filter.mpr ⟨he, by simp [hfb]⟩
    have hsortlen : (sortDescBy createdGt
        (store.filter (fun x => x.user_feedback == some "correct"))).length ≤ limit * 2 := by
      rw [(sortDescBy_perm _ _).length_eq]
      have := hlen
      omega
    have hget : get_correct_entries store (limit * 2) =
        sortDescBy createdGt (store.filter (fun x => x.user_feedback == some "correct")) := by
      simp only [get_correct_entries]
      exact List.take_of_length_le hsortlen
    have hmem1 : e ∈ get_correct_entries store (limit * 2) := by
      rw [hget]
      exact mem_sortDescBy.mpr hecf
    have hmem2 : e ∈ (get_correct_entries store (limit * 2)).filter
        (fun x => lowerStr x.topic == lowerStr topic) :=
      List.mem_filter.mpr ⟨hmem1, by simp [htop]⟩
    have hlen2 : ((get_correct_entries store (limit * 2)).filter
        (fun x => lowerStr x.topic == lowerStr topic)).length ≤ limit := by
      have h3 : ((get_correct_entries store (limit * 2)).filter
          (fun x => lowerStr x.topic == lowerStr topic)).length ≤
          (get_correct_entries store (limit * 2)).length := List.length_filter_le _ _
      have h4 : (get_correct_entries store (limit * 2)).length =
          (store.filter (fun x => x.user_feedback == some "correct")).length := by
        rw [hget, (sortDescBy_perm _ _).length_eq]
      omega
    simp only [get_solution_patterns]
    rw [List.take_of_length_le hlen2]
    exact List.mem_map_of_mem _ hmem2

theorem topic_matching_amended_witness :
    (c8exact ∈ get_entries_by_topic [c8exact] "algebra" 1) ∧
    (c8exact.topic = "algebra") ∧
    (c8entry ∈ [c8entry]) ∧ (c8entry.user_feedback = some "correct") ∧
    (lowerStr c8entry.topic = lowerStr "algebra") ∧
    (([c8entry].filter (fun x => x.user_feedback == some "correct")).length ≤ 5) ∧
    ((⟨c8entry.parsed_question, c8entry.solution_steps, c8entry.final_answer,
        c8entry.confidence⟩ : SolutionPattern) ∈
      get_solution_patterns [c8entry] "algebra" 5) :=
  ⟨by decide,
   topic_matching_amended.1 [c8exact] "algebra" 1 c8exact (by decide),
   by decide, by decide, by decide, by decide,
   topic_matching_amended.2 [c8entry] c8entry "algebra" 5 (by decide) (by decide)
     (by decide) (by decide)⟩

def c7entry : MemoryEntry :=
  mkEntry "mem_e" "solve x+1=2" "algebra" (some "correct") "2024-01-01T00:00:00"

/-- **C7** counterexample: with the vector index initialized and its
retrieval failing (`RAGRetriever.retrieve` re-raises such failures as
`RetrievalError`), `get_combined_context` itself propagates the error —
it is not true that it never raises. (The pipeline still survives: the
solver's `_retrieve_context` catches it, second conjunct.) -/
theorem combined_context_raises_counterexample :
    (get_combined_context ⟨true, .error "similarity search failed"⟩ [] "q" none =
      .error "similarity search failed") ∧
    (retrieve_context ⟨true, .error "similarity search failed"⟩ [] none "algebra" "q" =
      (none, none)) :=
  ⟨rfl, rfl⟩

/-- **C7** (amended): on an uninitialized vector index
`get_combined_context` returns `([], patterns)` without raising, and the
patterns can be non-empty (concrete store with an exact-topic correct
entry); store-side recall errors are swallowed inside the recall
engine; a vector-index retrieval error on an initialized index
propagates out of `get_combined_context`, but the solver's
`_retrieve_context` catches it and degrades to `(None, None)`, so the
pipeline is never aborted by context assembly. -/
theorem combined_context_degradation :
    (∀ (r : RagState) (store : List MemoryEntry) (query : String) (topic : Option String),
      r.initialized = false →
      get_combined_context r store query topic =
        .ok ([], memory_patterns_of store query topic)) ∧
    (memory_patterns_of [c7entry] "solve x+1=2" (some "algebra") ≠ []) ∧
    (∀ (r : RagState) (store : List MemoryEntry) (topic ptext msg : String),
      r.initialized = true → r.retrieveResult = .error msg →
      retrieve_context r store none topic ptext = (none, none)) := by
  refine ⟨?_, by decide, ?_⟩
  · intro r store query topic h
    simp [get_combined_context, h]
  · intro r store topic ptext msg h1 h2
    simp [retrieve_context, get_combined_context, rag_retrieve, h1, h2]

theorem combined_context_degradation_witness :
    ((⟨false, Except.ok []⟩ : RagState).initialized = false) ∧
    (get_combined_context ⟨false, Except.ok []⟩ [c7entry] "solve x+1=2" (some "algebra") =
      .ok ([], memory_patterns_of [c7entry] "solve x+1=2" (some "algebra"))) ∧
    ((⟨true, Except.error "boom"⟩ : RagState).initialized = true) ∧
    ((⟨true, Except.error "boom"⟩ : RagState).retrieveResult = .error "boom") ∧
    (retrieve_context ⟨true, Except.error "boom"⟩ [c7entry] none "algebra" "solve x+1=2" =
      (none, none)) :=
  ⟨rfl,
   combined_context_degradation.1 ⟨false, Except.ok []⟩ [c7entry] "solve x+1=2"
     (some "algebra") rfl,
   rfl, rfl,
   combined_context_degradation.2.2 ⟨true, Except.error "boom"⟩ [c7entry] "algebra"
     "solve x+1=2" "boom" rfl rfl⟩

def c3msgs : List (String × String) :=
  [("parser", "started"), ("parser", "completed"), ("intent_router", "started"),
   ("intent_router", "completed")]

def c3sched : List StreamAction :=
  [.produce, .poll, .produce, .poll, .produce, .poll, .cancel,
   .produce, .poll, .finishTask, .finish, .poll]

/-- **C3**: under every interleaving of task and generator steps, a
finished streaming run's event sequence is zero or more `agent_update`
events (a prefix of the task's progress messages, in order) followed by
exactly one terminal event (`final_result`, `error`, or `cancelled`);
and on the concrete schedule that cancels right after stage 2's
`started` update is delivered — with trailing task/poll steps after the
cancellation — the events are exactly the three updates followed by one
`cancelled` event, with no further `agent_update`. -/
theorem streaming_event_shape :
    (∀ (outcome : RunOutcome) (msgs : List (String × String)) (sched : List StreamAction),
      (runStream outcome msgs sched).finished = true →
      ∃ k t, (runStream outcome msgs sched).events =
          ((msgs.take k).map mkUpdate) ++ [t] ∧ isTerminal t = true ∧
          (∀ e ∈ (msgs.take k).map mkUpdate, isTerminal e = false)) ∧
    ((runStream RunOutcome.success c3msgs c3sched).events =
      [mkUpdate ("parser", "started"), mkUpdate ("parser", "completed"),
       mkUpdate ("intent_router", "started"), StreamEvent.cancelledEvt]) := by
  refine ⟨?_, by decide⟩
  intro outcome msgs sched hfin
  obtain ⟨k, t, hev, hterm⟩ := (runStream_inv outcome msgs sched).2 hfin
  refine ⟨k, t, hev, hterm, ?_⟩
  intro e he
  rcases List.mem_map.mp he with ⟨m, _, rfl⟩
  rfl

theorem streaming_event_shape_witness :
    ((runStream RunOutcome.success c3msgs c3sched).finished = true) ∧
    (∃ k t, (runStream RunOutcome.success c3msgs c3sched).events =
        ((c3msgs.take k).map mkUpdate) ++ [t] ∧ isTerminal t = true ∧
        (∀ e ∈ (c3msgs.take k).map mkUpdate, isTerminal e = false)) :=
  ⟨by decide, streaming_event_shape.1 RunOutcome.success c3msgs c3sched (by decide)⟩

end MathMentor
